import Mathlib

/-!
Verification of the path-constraint trail of the Triton symbolic execution
engine, as exposed through its Python binding layer
(src/libtriton/bindings/python/objects/pyPathConstraint.cpp).

The binding layer under src/ marshals a `triton::engines::symbolic::PathConstraint`
into Python values and translates every native `triton::exceptions::Exception`
into a Python `TypeError`.  The core class itself (pathConstraint.cpp) is not
part of the excerpt, so the core data model and operations are modelled from
the specification, while the marshaling and exception-translation behaviour is
embedded from the binding source.
-/

namespace Triton

/-- Modelled from the spec: a symbolic predicate is an immutable boolean
expression node produced by the instruction-semantics layer; the trail only
stores references to such nodes.  We model the node shapes the trail and the
solver feed need: variables, negation, conjunction and a trivially true node. -/
inductive Predicate where
  | pvar : Nat → Predicate
  | pnot : Predicate → Predicate
  | pand : Predicate → Predicate → Predicate
  | ptrue : Predicate
deriving DecidableEq, Repr

/-- Modelled from the spec: one candidate outgoing edge of a branching
instruction, mirroring the tuple (isTaken, srcAddr, dstAddr, constraint)
the binding reads from the core via getBranchConstraints.  Addresses are
u64 values, modelled as Nat. -/
structure BranchRecord where
  isTaken : Bool
  sourceAddress : Nat
  destinationAddress : Nat
  predicate : Predicate
deriving DecidableEq, Repr

/-- Modelled from the spec: one executed branching event with its ordered
branch records, thread id (i32, -1 when undefined) and mutable comment. -/
structure PathConstraint where
  branches : List BranchRecord
  threadId : Int
  comment : String
deriving DecidableEq, Repr

/-- Modelled from the spec: native error taxonomy of the component.
InvalidConstraintError signals malformed entry construction; InvalidHandleError
signals a query against an invalid entry handle. -/
inductive TritonError where
  | invalidConstraint : String → TritonError
  | invalidHandle : String → TritonError
deriving DecidableEq, Repr

/-- Number of branch records flagged as taken. -/
def countTaken (bs : List BranchRecord) : Nat :=
  (bs.filter (fun b => b.isTaken)).length

/-- Entry invariant: exactly one branch record is flagged as taken. -/
def entryWF (e : PathConstraint) : Prop :=
  countTaken e.branches = 1

/-- Trail invariant: every entry satisfies the entry invariant. -/
def TrailWF (t : List PathConstraint) : Prop :=
  ∀ e ∈ t, entryWF e

/-- Build an entry value from the arguments of appendEntry. -/
def mkEntry (bs : List BranchRecord) (tid : Int) (c : String) : PathConstraint :=
  { branches := bs, threadId := tid, comment := c }

/-- Modelled from the spec: appendEntry appends a new entry at the tail of the
trail; it fails with InvalidConstraintError when the branch sequence is empty
or when the number of taken records differs from one. -/
def appendEntry (trail : List PathConstraint) (bs : List BranchRecord)
    (tid : Int) (c : String) : Except TritonError (List PathConstraint) :=
  if bs.isEmpty then
    Except.error (TritonError.invalidConstraint "empty branch sequence")
  else if countTaken bs ≠ 1 then
    Except.error (TritonError.invalidConstraint "taken count is not one")
  else
    Except.ok (trail ++ [mkEntry bs tid c])

/-- State-passing view of appendEntry: on failure the trail state is kept
exactly as it was, so no partial entry is ever visible. -/
def appendEntryState (trail : List PathConstraint) (bs : List BranchRecord)
    (tid : Int) (c : String) : Except TritonError Unit × List PathConstraint :=
  match appendEntry trail bs tid c with
  | Except.error err => (Except.error err, trail)
  | Except.ok t => (Except.ok (), t)

/-- Modelled from the spec: getBranchConstraints is a read-only projection of
the entry branch sequence, order preserved from insertion. -/
def getBranchConstraints (e : PathConstraint) : List BranchRecord :=
  e.branches

/-- Modelled from the spec: getComment returns the comment of the entry. -/
def getComment (e : PathConstraint) : String :=
  e.comment

/-- Modelled from the spec: setComment replaces the comment of the entry; it is
the only post-construction mutator. -/
def setComment (e : PathConstraint) (t : String) : PathConstraint :=
  { e with comment := t }

/-- Modelled from the spec: getThreadId returns the thread identifier of the
entry, -1 when the engine is single-threaded or the id is unknown. -/
def getThreadId (e : PathConstraint) : Int :=
  e.threadId

/-- Modelled from the spec: isMultipleBranches holds exactly when the entry
has strictly more than one branch record. -/
def isMultipleBranches (e : PathConstraint) : Bool :=
  decide (1 < e.branches.length)

/-- Modelled from the spec: getTakenAddress returns the destination address of
the taken branch record (the first taken record; unique under the entry
invariant); it fails when no record is taken. -/
def getTakenAddress (e : PathConstraint) : Except TritonError Nat :=
  match e.branches.find? (fun b => b.isTaken) with
  | some b => Except.ok b.destinationAddress
  | none => Except.error (TritonError.invalidConstraint "no taken branch")

/-- Modelled from the spec: getSourceAddress returns the source address of the
taken branch record; it fails when no record is taken. -/
def getSourceAddress (e : PathConstraint) : Except TritonError Nat :=
  match e.branches.find? (fun b => b.isTaken) with
  | some b => Except.ok b.sourceAddress
  | none => Except.error (TritonError.invalidConstraint "no taken branch")

/-- Modelled from the spec: getTakenPredicate returns the predicate of the
taken branch record; it fails when no record is taken. -/
def getTakenPredicate (e : PathConstraint) : Except TritonError Predicate :=
  match e.branches.find? (fun b => b.isTaken) with
  | some b => Except.ok b.predicate
  | none => Except.error (TritonError.invalidConstraint "no taken branch")

/-! Python binding layer, embedded from
src/libtriton/bindings/python/objects/pyPathConstraint.cpp. -/

/-- Host (Python) values the binding layer produces: booleans, non-negative
integers (PyLong objects built by PyLong_FromUint32 and PyLong_FromUint64),
strings, None, lists, string-keyed dictionaries and AstNode wrappers. -/
inductive PyVal where
  | pyBool : Bool → PyVal
  | pyInt : Nat → PyVal
  | pyStr : String → PyVal
  | pyNone : PyVal
  | pyList : List PyVal → PyVal
  | pyDict : List (String × PyVal) → PyVal
  | pyAstNode : Predicate → PyVal

/-- Host (Python) errors the binding raises; the binding only ever raises
TypeError (PyErr_Format with PyExc_TypeError). -/
inductive HostError where
  | typeError : String → HostError
deriving DecidableEq, Repr

/-- Message carried by a native error, as rendered by its what() method. -/
def excMessage : TritonError → String
  | TritonError.invalidConstraint m => m
  | TritonError.invalidHandle m => m

/-- The try/catch wrapper every binding callback uses: a native exception is
caught and rendered as a host TypeError built from its message; it never
propagates natively (pyPathConstraint.cpp lines 137-139 and siblings). -/
def translateExc {α : Type} (r : Except TritonError α) : Except HostError α :=
  match r with
  | Except.ok v => Except.ok v
  | Except.error e => Except.error (HostError.typeError (excMessage e))

/-- PyPathConstraint_AsPathConstraint on a handle: a valid handle yields the
underlying entry; an invalid one signals InvalidHandleError (spec section 4.2). -/
def derefHandle (h : Option PathConstraint) : Except TritonError PathConstraint :=
  match h with
  | some e => Except.ok e
  | none => Except.error (TritonError.invalidHandle "invalid PathConstraint handle")

/-- Shape of every binding getter: dereference the handle, run the native
getter, translate any native exception to a host error. -/
def bindingGetter {α : Type} (h : Option PathConstraint)
    (g : PathConstraint → Except TritonError α) : Except HostError α :=
  translateExc (derefHandle h >>= g)

/-- PyLong_FromUint32: builds a Python integer from an unsigned 32-bit value. -/
def PyLong_FromUint32 (v : Nat) : PyVal :=
  PyVal.pyInt (v % 2 ^ 32)

/-- PyLong_FromUint64: builds a Python integer from an unsigned 64-bit value. -/
def PyLong_FromUint64 (v : Nat) : PyVal :=
  PyVal.pyInt (v % 2 ^ 64)

/-- C++ integral conversion of a signed value to the unsigned 32-bit argument
type of PyLong_FromUint32 (reduction modulo 2^32, two's complement). -/
def toUInt32 (v : Int) : Nat :=
  (v % (2 ^ 32 : Int)).toNat

/-- Marshaling of one branch record into the Python dictionary built at
pyPathConstraint.cpp lines 127-132: keys isTaken, srcAddr, dstAddr, constraint
set in that order from the tuple fields. -/
def marshalBranch (b : BranchRecord) : PyVal :=
  PyVal.pyDict
    [("isTaken", PyVal.pyBool b.isTaken),
     ("srcAddr", PyLong_FromUint64 b.sourceAddress),
     ("dstAddr", PyLong_FromUint64 b.destinationAddress),
     ("constraint", PyVal.pyAstNode b.predicate)]

/-- PathConstraint_getBranchConstraints (lines 120-140): builds a Python list
with one marshalled dictionary per branch record, in order. -/
def PathConstraint_getBranchConstraints (e : PathConstraint) :
    Except TritonError PyVal :=
  Except.ok (PyVal.pyList ((getBranchConstraints e).map marshalBranch))

/-- PathConstraint_getComment (lines 143-150). -/
def PathConstraint_getComment (e : PathConstraint) : Except TritonError PyVal :=
  Except.ok (PyVal.pyStr (getComment e))

/-- PathConstraint_getSourceAddress (lines 153-160). -/
def PathConstraint_getSourceAddress (e : PathConstraint) :
    Except TritonError PyVal :=
  (getSourceAddress e).map PyLong_FromUint64

/-- PathConstraint_getTakenAddress (lines 163-170). -/
def PathConstraint_getTakenAddress (e : PathConstraint) :
    Except TritonError PyVal :=
  (getTakenAddress e).map PyLong_FromUint64

/-- PathConstraint_getTakenPredicate (lines 173-180). -/
def PathConstraint_getTakenPredicate (e : PathConstraint) :
    Except TritonError PyVal :=
  (getTakenPredicate e).map PyVal.pyAstNode

/-- PathConstraint_getThreadId (lines 183-190): the native thread id is passed
through PyLong_FromUint32, so it is converted to its unsigned 32-bit value. -/
def PathConstraint_getThreadId (e : PathConstraint) : Except TritonError PyVal :=
  Except.ok (PyLong_FromUint32 (toUInt32 (getThreadId e)))

/-- PathConstraint_isMultipleBranches (lines 193-202). -/
def PathConstraint_isMultipleBranches (e : PathConstraint) :
    Except TritonError PyVal :=
  Except.ok (PyVal.pyBool (isMultipleBranches e))

/-- PathConstraint_setComment (lines 205-216): a non-string argument yields a
TypeError before any mutation; a string argument replaces the comment and
returns None. -/
def PathConstraint_setComment (e : PathConstraint) (arg : PyVal) :
    Except HostError PyVal × PathConstraint :=
  match arg with
  | PyVal.pyStr s => (Except.ok PyVal.pyNone, setComment e s)
  | _ =>
    (Except.error (HostError.typeError
      "PathConstraint::setComment(): Expected a string as argument."), e)

/-- Binding wrapper state: the engine trail together with the wrapper object;
PyPathConstraint (lines 295-304) allocates a fresh copy of the native entry
(new PathConstraint(pc)), so the wrapper owns its own value. -/
structure BindingState where
  engineTrail : List PathConstraint
  wrapper : PathConstraint
deriving DecidableEq, Repr

/-- PyPathConstraint applied to entry i of the engine trail: the wrapper is a
copy of that entry. -/
def mkWrapper (trail : List PathConstraint) (i : Nat) (h : i < trail.length) :
    BindingState :=
  { engineTrail := trail, wrapper := trail.get ⟨i, h⟩ }

/-- setComment called through the wrapper: only the wrapper copy is mutated. -/
def wrapperSetComment (s : BindingState) (t : String) : BindingState :=
  { s with wrapper := setComment s.wrapper t }

/-! Path-predicate construction for the solver feed (spec section 4.3),
modelled from the spec. -/

/-- Taken predicate of an entry, totalised with the trivially true node for an
entry with no taken record (which never arises on a well-formed trail). -/
def getTakenPredicateD (e : PathConstraint) : Predicate :=
  match e.branches.find? (fun b => b.isTaken) with
  | some b => b.predicate
  | none => Predicate.ptrue

/-- Conjunction of a list of predicates in order, left associated; the empty
conjunction is the trivially true node. -/
def conjunctAll : List Predicate → Predicate
  | [] => Predicate.ptrue
  | p :: ps => ps.foldl Predicate.pand p

/-- Modelled from the spec: iterative accumulation of the path predicate over
the remaining entries, in trail order. -/
def buildPathPredicateAux (acc : Predicate) : List PathConstraint → Predicate
  | [] => acc
  | e :: rest => buildPathPredicateAux (Predicate.pand acc (getTakenPredicateD e)) rest

/-- Modelled from the spec: the full-path predicate of a trail is the
conjunction, in trail order, of the taken predicates of its entries. -/
def buildPathPredicate : List PathConstraint → Predicate
  | [] => Predicate.ptrue
  | e :: rest => buildPathPredicateAux (getTakenPredicateD e) rest

/-- Modelled from the spec: accumulation for the alternate-path predicate;
entry k contributes the substituted predicate alt instead of its taken one. -/
def buildAltPathPredicateAux (acc : Predicate) :
    List PathConstraint → Nat → Predicate → Predicate
  | [], _, _ => acc
  | _ :: _, 0, alt => Predicate.pand acc alt
  | e :: rest, Nat.succ k, alt =>
    buildAltPathPredicateAux (Predicate.pand acc (getTakenPredicateD e)) rest k alt

/-- Modelled from the spec: the alternate-path predicate for entry k is the
conjunction over the entries up to and including k, with alt (the negation of
the taken predicate of entry k, or the predicate of a chosen non-taken branch
record) substituted in place of the taken predicate of entry k. -/
def buildAltPathPredicate : List PathConstraint → Nat → Predicate → Predicate
  | [], _, _ => Predicate.ptrue
  | _ :: _, 0, alt => alt
  | e :: rest, Nat.succ k, alt =>
    buildAltPathPredicateAux (getTakenPredicateD e) rest k alt

/-- Negation of the taken predicate of an entry. -/
def negatedTakenPredicate (e : PathConstraint) : Predicate :=
  Predicate.pnot (getTakenPredicateD e)

/-! Sample values used by the concrete witnesses; the branch records follow the
end-to-end scenarios of the spec (section 8). -/

/-- Not-taken edge of scenario 1. -/
def branchNotTaken : BranchRecord :=
  { isTaken := false, sourceAddress := 0x1000, destinationAddress := 0x2000,
    predicate := Predicate.pvar 1 }

/-- Taken edge of scenario 1. -/
def branchTaken : BranchRecord :=
  { isTaken := true, sourceAddress := 0x1000, destinationAddress := 0x1004,
    predicate := Predicate.pvar 2 }

/-- Single taken edge of scenario 2. -/
def branchSingle : BranchRecord :=
  { isTaken := true, sourceAddress := 0x3000, destinationAddress := 0x3004,
    predicate := Predicate.pvar 3 }

/-- Two-branch entry of scenario 1. -/
def entryScenario1 : PathConstraint := mkEntry [branchNotTaken, branchTaken] 0 ""

/-- Single-branch entry of scenario 2. -/
def entryScenario2 : PathConstraint := mkEntry [branchSingle] 0 ""

/-! Helper lemmas about the taken-record count and the taken-record search. -/

theorem countTaken_cons (b : BranchRecord) (bs : List BranchRecord) :
    countTaken (b :: bs) = (if b.isTaken then 1 else 0) + countTaken bs := by
  cases hb : b.isTaken <;> simp [countTaken, List.filter_cons, hb, Nat.add_comm]

theorem taken_eq_false_of_countTaken_zero {bs : List BranchRecord}
    (h : countTaken bs = 0) {b : BranchRecord} (hb : b ∈ bs) :
    b.isTaken = false := by
  cases hbt : b.isTaken
  · rfl
  · exfalso
    have hmem : b ∈ bs.filter (fun x => x.isTaken) := List.mem_filter.mpr ⟨hb, hbt⟩
    have h0 : bs.filter (fun x => x.isTaken) = [] := List.length_eq_zero.mp h
    rw [h0] at hmem
    exact absurd hmem (List.not_mem_nil b)

theorem find_taken_of_unique (bs : List BranchRecord) (h1 : countTaken bs = 1) :
    ∀ i (hi : i < bs.length), (bs.get ⟨i, hi⟩).isTaken = true →
      bs.find? (fun b => b.isTaken) = some (bs.get ⟨i, hi⟩) := by
  induction bs with
  | nil => intro i hi _; exact absurd hi (by simp)
  | cons b rest ih =>
    intro i hi ht
    cases hb : b.isTaken
    · have h1r : countTaken rest = 1 := by
        rw [countTaken_cons, hb] at h1; simpa using h1
      match i with
      | 0 => rw [List.get] at ht; exact absurd ht (by simp [hb])
      | Nat.succ j =>
        have hj : j < rest.length := by simpa using hi
        have := ih h1r j hj (by simpa [List.get] using ht)
        simpa [List.find?, hb, List.get] using this
    · have hrest : countTaken rest = 0 := by
        rw [countTaken_cons, hb] at h1; simpa using h1
      match i with
      | 0 => simp [List.find?, hb, List.get]
      | Nat.succ j =>
        exfalso
        have hj : j < rest.length := by simpa using hi
        have hmem : rest.get ⟨j, hj⟩ ∈ rest := List.get_mem rest j hj
        have hfalse := taken_eq_false_of_countTaken_zero hrest hmem
        have htj : (rest.get ⟨j, hj⟩).isTaken = true := by simpa [List.get] using ht
        rw [hfalse] at htj
        exact Bool.false_ne_true htj

theorem find_taken_isSome_of_countTaken_one {bs : List BranchRecord}
    (h : countTaken bs = 1) : ∃ b, bs.find? (fun x => x.isTaken) = some b := by
  cases hf : bs.find? (fun x => x.isTaken) with
  | some b => exact ⟨b, rfl⟩
  | none =>
    exfalso
    have hall := List.find?_eq_none.mp hf
    have hnil : bs.filter (fun x => x.isTaken) = [] :=
      List.filter_eq_nil_iff.mpr hall
    rw [countTaken, hnil] at h
    simp at h

/-! Claim theorems. -/

/-- C1: every constructed entry has exactly one taken branch record; appendEntry
with an empty branch sequence or a taken count different from one fails with
InvalidConstraintError and leaves the trail unchanged (same trail value, hence
the same length and no partial entry); a valid call appends exactly one
well-formed entry at the tail. -/
theorem appendEntry_exactlyOneTaken (trail : List PathConstraint)
    (bs : List BranchRecord) (tid : Int) (c : String) (hwf : TrailWF trail) :
    ((bs = [] ∨ countTaken bs ≠ 1) →
      (∃ msg, (appendEntryState trail bs tid c).1 =
          Except.error (TritonError.invalidConstraint msg)) ∧
      (appendEntryState trail bs tid c).2 = trail ∧
      (appendEntryState trail bs tid c).2.length = trail.length) ∧
    (countTaken bs = 1 →
      appendEntryState trail bs tid c =
        (Except.ok (), trail ++ [mkEntry bs tid c]) ∧
      TrailWF (trail ++ [mkEntry bs tid c]) ∧
      entryWF (mkEntry bs tid c)) := by
  constructor
  · intro hbad
    have herr : ∃ msg, appendEntry trail bs tid c =
        Except.error (TritonError.invalidConstraint msg) := by
      by_cases he : bs.isEmpty
      · exact ⟨"empty branch sequence", by simp [appendEntry, he]⟩
      · have hne : countTaken bs ≠ 1 := by
          rcases hbad with hnil | h1
          · exact absurd (by simp [hnil]) he
          · exact h1
        exact ⟨"taken count is not one", by simp [appendEntry, he, hne]⟩
    rcases herr with ⟨msg, hm⟩
    exact ⟨⟨msg, by simp [appendEntryState, hm]⟩,
      by simp [appendEntryState, hm], by simp [appendEntryState, hm]⟩
  · intro hone
    have hne : ¬ bs.isEmpty := by
      intro h
      rw [List.isEmpty_iff] at h
      rw [h] at hone
      simp [countTaken] at hone
    have happ : appendEntry trail bs tid c =
        Except.ok (trail ++ [mkEntry bs tid c]) := by
      simp [appendEntry, hne, hone]
    refine ⟨by simp [appendEntryState, happ], ?_, hone⟩
    intro e he
    rcases List.mem_append.mp he with h1 | h2
    · exact hwf e h1
    · have : e = mkEntry bs tid c := by simpa using h2
      rw [this]
      exact hone

/-- Witness for C1: appending two taken records to the empty trail fails and
keeps the trail empty; appending the scenario-1 pair succeeds. -/
theorem appendEntry_exactlyOneTaken_witness :
    ((∃ msg, (appendEntryState [] [branchTaken, branchTaken] 0 "").1 =
        Except.error (TritonError.invalidConstraint msg)) ∧
      (appendEntryState [] [branchTaken, branchTaken] 0 "").2 = []) ∧
    appendEntryState [] [branchNotTaken, branchTaken] 0 "" =
      (Except.ok (), [mkEntry [branchNotTaken, branchTaken] 0 ""]) := by
  have hwf : TrailWF [] := fun e he => absurd he (List.not_mem_nil e)
  have hbad := (appendEntry_exactlyOneTaken [] [branchTaken, branchTaken] 0 ""
    hwf).1 (Or.inr (by decide))
  have hgood := (appendEntry_exactlyOneTaken [] [branchNotTaken, branchTaken] 0 ""
    hwf).2 (by decide)
  exact ⟨⟨hbad.1, hbad.2.1⟩, hgood.1⟩

/-- C3: isMultipleBranches holds exactly when the entry has strictly more than
one branch record; an entry with exactly two branches yields true, a
single-branch entry yields false. -/
theorem isMultipleBranches_iff (e : PathConstraint) :
    (isMultipleBranches e = true ↔ 1 < e.branches.length) ∧
    (e.branches.length = 2 → isMultipleBranches e = true) ∧
    (e.branches.length = 1 → isMultipleBranches e = false) := by
  refine ⟨by simp [isMultipleBranches], ?_, ?_⟩ <;>
    intro h <;> simp [isMultipleBranches, h]

/-- Witness for C3: the two-branch scenario-1 entry yields true, the
single-branch scenario-2 entry yields false. -/
theorem isMultipleBranches_iff_witness :
    isMultipleBranches entryScenario1 = true ∧
    isMultipleBranches entryScenario2 = false :=
  ⟨(isMultipleBranches_iff entryScenario1).2.1 rfl,
   (isMultipleBranches_iff entryScenario2).2.2 rfl⟩

/-- C4: under the entry invariant, getTakenAddress returns the destination
address of the unique taken branch record and getTakenPredicate returns that
same record's predicate (and getSourceAddress its source address). -/
theorem getTaken_of_unique (e : PathConstraint) (hwf : entryWF e)
    (i : Nat) (hi : i < e.branches.length)
    (ht : (e.branches.get ⟨i, hi⟩).isTaken = true) :
    getTakenAddress e = Except.ok (e.branches.get ⟨i, hi⟩).destinationAddress ∧
    getTakenPredicate e = Except.ok (e.branches.get ⟨i, hi⟩).predicate ∧
    getSourceAddress e = Except.ok (e.branches.get ⟨i, hi⟩).sourceAddress := by
  have hf := find_taken_of_unique e.branches hwf i hi ht
  exact ⟨by simp [getTakenAddress, hf], by simp [getTakenPredicate, hf],
    by simp [getSourceAddress, hf]⟩

/-- Witness for C4: on the scenario-1 entry the taken record is at index 1 and
getTakenAddress yields 0x1004 while getTakenPredicate yields its predicate. -/
theorem getTaken_of_unique_witness :
    getTakenAddress entryScenario1 = Except.ok 0x1004 ∧
    getTakenPredicate entryScenario1 = Except.ok (Predicate.pvar 2) := by
  have h := getTaken_of_unique entryScenario1
    (show countTaken entryScenario1.branches = 1 by decide) 1 (by decide) (by decide)
  exact ⟨h.1, h.2.1⟩

/-! Helper lemmas relating the iterative predicate builders to the declarative
conjunction over the mapped list of taken predicates. -/

theorem buildPathPredicateAux_eq (l : List PathConstraint) :
    ∀ acc, buildPathPredicateAux acc l =
      (l.map getTakenPredicateD).foldl Predicate.pand acc := by
  induction l with
  | nil => intro acc; rfl
  | cons e rest ih => intro acc; simp [buildPathPredicateAux, ih]

theorem buildPathPredicate_eq (trail : List PathConstraint) :
    buildPathPredicate trail = conjunctAll (trail.map getTakenPredicateD) := by
  cases trail with
  | nil => rfl
  | cons e rest => simp [buildPathPredicate, conjunctAll, buildPathPredicateAux_eq]

theorem buildAltPathPredicateAux_eq (rest : List PathConstraint) :
    ∀ acc k alt, k < rest.length →
      buildAltPathPredicateAux acc rest k alt =
        ((rest.take k).map getTakenPredicateD ++ [alt]).foldl Predicate.pand acc := by
  induction rest with
  | nil => intro acc k alt hk; exact absurd hk (by simp)
  | cons b bs ih =>
    intro acc k alt hk
    match k with
    | 0 => simp [buildAltPathPredicateAux]
    | Nat.succ j =>
      have hj : j < bs.length := by simpa using hk
      simp [buildAltPathPredicateAux, ih _ j alt hj, List.take_succ_cons]

theorem buildAltPathPredicate_eq_append (trail : List PathConstraint) (k : Nat)
    (alt : Predicate) (hk : k < trail.length) :
    buildAltPathPredicate trail k alt =
      conjunctAll ((trail.take k).map getTakenPredicateD ++ [alt]) := by
  cases trail with
  | nil => exact absurd hk (by simp)
  | cons e rest =>
    match k with
    | 0 => simp [buildAltPathPredicate, conjunctAll]
    | Nat.succ j =>
      have hj : j < rest.length := by simpa using hk
      simp [buildAltPathPredicate, buildAltPathPredicateAux_eq rest _ j alt hj,
        conjunctAll, List.take_succ_cons]

theorem mapTaken_take_set (trail : List PathConstraint) (k : Nat)
    (alt : Predicate) (hk : k < trail.length) :
    (((trail.take (k + 1)).map getTakenPredicateD).set k alt) =
      (trail.take k).map getTakenPredicateD ++ [alt] := by
  have hlen : ((trail.take (k + 1)).map getTakenPredicateD).length = k + 1 := by
    simp [List.length_take]
    omega
  rw [List.set_eq_take_append_cons_drop]
  rw [if_pos (show k < ((trail.take (k + 1)).map getTakenPredicateD).length by omega)]
  rw [List.drop_eq_nil_of_le (by omega)]
  rw [← List.map_take, List.take_take]
  have hmin : min k (k + 1) = k := Nat.min_eq_left (Nat.le_succ k)
  rw [hmin]

/-- C2: the path predicate built for the solver over any chosen number of
leading trail entries is the conjunction, in trail order, of the taken
predicates of those entries; the alternate-path predicate for entry k is the
same conjunction over the leading entries up to and including k with the
substituted predicate (the negation of the taken predicate of entry k, or the
predicate of a chosen non-taken branch record) in place of the taken predicate
of entry k. -/
theorem pathPredicate_conjunction_spec (trail : List PathConstraint)
    (n k : Nat) (alt : Predicate) (hk : k < trail.length) :
    buildPathPredicate (trail.take n) =
      conjunctAll ((trail.take n).map getTakenPredicateD) ∧
    buildAltPathPredicate trail k alt =
      conjunctAll ((((trail.take (k + 1)).map getTakenPredicateD).set k alt)) ∧
    buildAltPathPredicate trail k (negatedTakenPredicate (trail.get ⟨k, hk⟩)) =
      conjunctAll ((((trail.take (k + 1)).map getTakenPredicateD).set k
        (Predicate.pnot (getTakenPredicateD (trail.get ⟨k, hk⟩))))) := by
  refine ⟨buildPathPredicate_eq _, ?_, ?_⟩
  · rw [buildAltPathPredicate_eq_append trail k alt hk,
      mapTaken_take_set trail k alt hk]
  · rw [buildAltPathPredicate_eq_append trail k _ hk,
      mapTaken_take_set trail k _ hk]
    rfl

/-- Witness for C2, following end-to-end scenario 3: over the two-entry trail
the full path predicate is the ordered conjunction of the two taken
predicates, and negating the decision of entry 2 substitutes the negation of
its taken predicate. -/
theorem pathPredicate_conjunction_spec_witness :
    buildPathPredicate [entryScenario1, entryScenario2] =
      Predicate.pand (Predicate.pvar 2) (Predicate.pvar 3) ∧
    buildAltPathPredicate [entryScenario1, entryScenario2] 1
        (Predicate.pnot (Predicate.pvar 3)) =
      Predicate.pand (Predicate.pvar 2) (Predicate.pnot (Predicate.pvar 3)) := by
  have h := pathPredicate_conjunction_spec [entryScenario1, entryScenario2] 2 1
    (Predicate.pnot (Predicate.pvar 3)) (by decide)
  exact ⟨h.1.trans (by decide), h.2.1.trans (by decide)⟩

/-- C5: for an entry built from the branch sequence accepted by appendEntry,
getBranchConstraints is a read-only projection returning the same sequence,
and the binding marshals it to a Python list of the same length whose element
at each index is the dictionary carrying exactly the isTaken, source-address,
destination-address and predicate values of the corresponding input record. -/
theorem getBranchConstraints_roundtrip (trail t : List PathConstraint)
    (bs : List BranchRecord) (tid : Int) (c : String)
    (h : appendEntry trail bs tid c = Except.ok t) :
    t = trail ++ [mkEntry bs tid c] ∧
    getBranchConstraints (mkEntry bs tid c) = bs ∧
    PathConstraint_getBranchConstraints (mkEntry bs tid c) =
      Except.ok (PyVal.pyList (bs.map marshalBranch)) ∧
    (bs.map marshalBranch).length = bs.length ∧
    ∀ i (hi : i < bs.length),
      (bs.map marshalBranch).get ⟨i, by simpa using hi⟩ =
        PyVal.pyDict
          [("isTaken", PyVal.pyBool (bs.get ⟨i, hi⟩).isTaken),
           ("srcAddr", PyLong_FromUint64 (bs.get ⟨i, hi⟩).sourceAddress),
           ("dstAddr", PyLong_FromUint64 (bs.get ⟨i, hi⟩).destinationAddress),
           ("constraint", PyVal.pyAstNode (bs.get ⟨i, hi⟩).predicate)] := by
  refine ⟨?_, rfl, rfl, by simp, ?_⟩
  · unfold appendEntry at h
    split at h
    · exact absurd h (by simp)
    · split at h
      · exact absurd h (by simp)
      · injection h with h
        exact h.symm
  · intro i hi
    simp [List.get_eq_getElem, List.getElem_map, marshalBranch]

/-- Witness for C5: the scenario-1 branch pair survives the append and is
marshalled in order. -/
theorem getBranchConstraints_roundtrip_witness :
    PathConstraint_getBranchConstraints (mkEntry [branchNotTaken, branchTaken] 0 "") =
      Except.ok (PyVal.pyList
        [marshalBranch branchNotTaken, marshalBranch branchTaken]) := by
  have h := getBranchConstraints_roundtrip []
    ([] ++ [mkEntry [branchNotTaken, branchTaken] 0 ""])
    [branchNotTaken, branchTaken] 0 "" rfl
  exact h.2.2.1

/-- C6 evaluation at the failing input: for an entry whose thread id is
undefined (the sentinel -1), the native getThreadId yields -1, but the binding
PathConstraint_getThreadId marshals it through PyLong_FromUint32, so the value
observed by the Python consumer is the unsigned 32-bit value 4294967295
(2 to the 32 minus 1), not -1 — contradicting the API documentation in the
same source file (pyPathConstraint.cpp line 96), which states that -1 is
returned when the thread id is undefined. -/
theorem getThreadId_undefined_observed :
    getThreadId (mkEntry [branchSingle] (-1) "") = -1 ∧
    PathConstraint_getThreadId (mkEntry [branchSingle] (-1) "") =
      Except.ok (PyVal.pyInt 4294967295) ∧
    (4294967295 : Nat) = 2 ^ 32 - 1 := by
  have hval : toUInt32 (-1) = 4294967295 := by decide
  refine ⟨rfl, ?_, by norm_num⟩
  simp [PathConstraint_getThreadId, PyLong_FromUint32, getThreadId, mkEntry, hval]

/-- C7: every getter succeeds on a valid entry handle (an entry satisfying the
construction invariant); on an invalid handle every getter fails through the
InvalidHandleError raised by the handle dereference; and the try/catch boundary
translates every native outcome — success or exception — into a host value or
a host TypeError, never propagating a native exception. -/
theorem getters_success_and_translation (e : PathConstraint) (hwf : entryWF e) :
    (∃ v, bindingGetter (some e) PathConstraint_getBranchConstraints = Except.ok v) ∧
    (∃ v, bindingGetter (some e) PathConstraint_getComment = Except.ok v) ∧
    (∃ v, bindingGetter (some e) PathConstraint_getSourceAddress = Except.ok v) ∧
    (∃ v, bindingGetter (some e) PathConstraint_getTakenAddress = Except.ok v) ∧
    (∃ v, bindingGetter (some e) PathConstraint_getTakenPredicate = Except.ok v) ∧
    (∃ v, bindingGetter (some e) PathConstraint_getThreadId = Except.ok v) ∧
    (∃ v, bindingGetter (some e) PathConstraint_isMultipleBranches = Except.ok v) ∧
    (∃ m, derefHandle (none : Option PathConstraint) =
      Except.error (TritonError.invalidHandle m)) ∧
    (∀ g : PathConstraint → Except TritonError PyVal, ∃ m,
      bindingGetter none g = Except.error (HostError.typeError m)) ∧
    (∀ r : Except TritonError PyVal,
      (∃ v, translateExc r = Except.ok v ∧ r = Except.ok v) ∨
      (∃ te m, translateExc r = Except.error (HostError.typeError m) ∧
        r = Except.error te)) := by
  obtain ⟨b, hb⟩ := find_taken_isSome_of_countTaken_one hwf
  have hsrc : getSourceAddress e = Except.ok b.sourceAddress := by
    simp [getSourceAddress, hb]
  have hdst : getTakenAddress e = Except.ok b.destinationAddress := by
    simp [getTakenAddress, hb]
  have hprd : getTakenPredicate e = Except.ok b.predicate := by
    simp [getTakenPredicate, hb]
  refine ⟨⟨_, rfl⟩, ⟨_, rfl⟩,
    ⟨PyLong_FromUint64 b.sourceAddress, ?_⟩,
    ⟨PyLong_FromUint64 b.destinationAddress, ?_⟩,
    ⟨PyVal.pyAstNode b.predicate, ?_⟩,
    ⟨_, rfl⟩, ⟨_, rfl⟩, ⟨_, rfl⟩, fun g => ⟨_, rfl⟩, fun r => ?_⟩
  · show translateExc (PathConstraint_getSourceAddress e) = _
    simp only [PathConstraint_getSourceAddress, hsrc]
    rfl
  · show translateExc (PathConstraint_getTakenAddress e) = _
    simp only [PathConstraint_getTakenAddress, hdst]
    rfl
  · show translateExc (PathConstraint_getTakenPredicate e) = _
    simp only [PathConstraint_getTakenPredicate, hprd]
    rfl
  · cases r with
    | ok v => exact Or.inl ⟨v, rfl, rfl⟩
    | error te => exact Or.inr ⟨te, excMessage te, rfl, rfl⟩

/-- Witness for C7: all seven getters succeed on the scenario-1 entry handle
and an invalid handle is rejected. -/
theorem getters_success_and_translation_witness :
    (∃ v, bindingGetter (some entryScenario1) PathConstraint_getTakenAddress =
      Except.ok v) ∧
    (∃ m, bindingGetter (none : Option PathConstraint)
      PathConstraint_getTakenAddress = Except.error (HostError.typeError m)) := by
  have h := getters_success_and_translation entryScenario1
    (show countTaken entryScenario1.branches = 1 by decide)
  exact ⟨h.2.2.2.1, h.2.2.2.2.2.2.2.2.1 PathConstraint_getTakenAddress⟩

/-- C8: getters are idempotent — calling any getter twice on the same
unmodified entry returns identical results; setComment followed by getComment
returns exactly the last-set text, also across two successive writes; and
setComment leaves every other observable of the entry unchanged, being the
only post-construction mutator. -/
theorem getters_idempotent_setComment_lastWrite (e : PathConstraint)
    (t t1 t2 : String) :
    getComment (setComment e t) = t ∧
    getComment (setComment (setComment e t1) t2) = t2 ∧
    (setComment e t).branches = e.branches ∧
    (setComment e t).threadId = e.threadId ∧
    getBranchConstraints (setComment e t) = getBranchConstraints e ∧
    getTakenAddress (setComment e t) = getTakenAddress e ∧
    getTakenPredicate (setComment e t) = getTakenPredicate e ∧
    getSourceAddress (setComment e t) = getSourceAddress e ∧
    getThreadId (setComment e t) = getThreadId e ∧
    isMultipleBranches (setComment e t) = isMultipleBranches e ∧
    getBranchConstraints e = getBranchConstraints e ∧
    getComment e = getComment e ∧
    getThreadId e = getThreadId e ∧
    getTakenAddress e = getTakenAddress e ∧
    isMultipleBranches e = isMultipleBranches e :=
  ⟨rfl, rfl, rfl, rfl, rfl, rfl, rfl, rfl, rfl, rfl, rfl, rfl, rfl, rfl, rfl⟩

/-- C9: the binding wrapper holds its own freshly copied entry; setComment
through the wrapper changes only the wrapper copy — the engine trail and every
field of the underlying trail entry (branches, thread id, original comment)
are unchanged — while the wrapper copy carries the new comment over the
original branches and thread id. -/
theorem wrapper_copy_frame (trail : List PathConstraint) (i : Nat)
    (h : i < trail.length) (t : String) :
    (wrapperSetComment (mkWrapper trail i h) t).engineTrail = trail ∧
    (wrapperSetComment (mkWrapper trail i h) t).engineTrail.get ⟨i, h⟩ =
      trail.get ⟨i, h⟩ ∧
    ((wrapperSetComment (mkWrapper trail i h) t).engineTrail.get ⟨i, h⟩).branches =
      (trail.get ⟨i, h⟩).branches ∧
    ((wrapperSetComment (mkWrapper trail i h) t).engineTrail.get ⟨i, h⟩).threadId =
      (trail.get ⟨i, h⟩).threadId ∧
    ((wrapperSetComment (mkWrapper trail i h) t).engineTrail.get ⟨i, h⟩).comment =
      (trail.get ⟨i, h⟩).comment ∧
    (wrapperSetComment (mkWrapper trail i h) t).wrapper.comment = t ∧
    (wrapperSetComment (mkWrapper trail i h) t).wrapper.branches =
      (trail.get ⟨i, h⟩).branches ∧
    (wrapperSetComment (mkWrapper trail i h) t).wrapper.threadId =
      (trail.get ⟨i, h⟩).threadId :=
  ⟨rfl, rfl, rfl, rfl, rfl, rfl, rfl, rfl⟩

/-- Witness for C9: mutating the wrapper comment of the sole trail entry
leaves the engine trail identical and retags only the wrapper copy. -/
theorem wrapper_copy_frame_witness :
    (wrapperSetComment (mkWrapper [entryScenario1] 0 Nat.one_pos) "note").engineTrail =
      [entryScenario1] ∧
    (wrapperSetComment (mkWrapper [entryScenario1] 0 Nat.one_pos) "note").wrapper.comment =
      "note" := by
  have h := wrapper_copy_frame [entryScenario1] 0 Nat.one_pos "note"
  exact ⟨h.1, h.2.2.2.2.2.1⟩

/-- C10: setComment called with a non-string argument fails with a host
TypeError and leaves the entry — in particular its comment — unchanged; with a
string argument the call returns None and the comment becomes exactly that
string, every other field unchanged: the mutation is atomic. -/
theorem setComment_atomic (e : PathConstraint) (arg : PyVal) (s : String) :
    ((∀ v : String, arg ≠ PyVal.pyStr v) →
      (∃ m, (PathConstraint_setComment e arg).1 =
        Except.error (HostError.typeError m)) ∧
      (PathConstraint_setComment e arg).2 = e ∧
      getComment (PathConstraint_setComment e arg).2 = getComment e) ∧
    ((PathConstraint_setComment e (PyVal.pyStr s)).1 = Except.ok PyVal.pyNone ∧
      getComment (PathConstraint_setComment e (PyVal.pyStr s)).2 = s ∧
      (PathConstraint_setComment e (PyVal.pyStr s)).2.branches = e.branches ∧
      (PathConstraint_setComment e (PyVal.pyStr s)).2.threadId = e.threadId) := by
  constructor
  · intro hns
    cases arg with
    | pyBool b => exact ⟨⟨_, rfl⟩, rfl, rfl⟩
    | pyInt n => exact ⟨⟨_, rfl⟩, rfl, rfl⟩
    | pyStr v => exact absurd rfl (hns v)
    | pyNone => exact ⟨⟨_, rfl⟩, rfl, rfl⟩
    | pyList l => exact ⟨⟨_, rfl⟩, rfl, rfl⟩
    | pyDict d => exact ⟨⟨_, rfl⟩, rfl, rfl⟩
    | pyAstNode p => exact ⟨⟨_, rfl⟩, rfl, rfl⟩
  · exact ⟨rfl, rfl, rfl, rfl⟩

/-- Witness for C10: a Python integer argument is rejected and the entry keeps
its comment; a string argument becomes the new comment. -/
theorem setComment_atomic_witness :
    (PathConstraint_setComment entryScenario1 (PyVal.pyInt 3)).2 = entryScenario1 ∧
    getComment (PathConstraint_setComment entryScenario1 (PyVal.pyStr "hello")).2 =
      "hello" := by
  have h := setComment_atomic entryScenario1 (PyVal.pyInt 3) "hello"
  exact ⟨(h.1 (fun v hv => PyVal.noConfusion hv)).2.1, h.2.2.1⟩

end Triton
